import Mathlib

/-!
Verification of the EC11 quadrature rotary-encoder decoder
(src/ec11TaoBao.py, class `EC11`).

The decoder is embedded shallowly: the mutable fields set in `__init__`
become a structure `EC11`, and each method becomes a pure function from the
sampled pin levels (read from GPIO by the caller in the source) and the old
state to a result together with the new state.  A Python list indexing that
could raise `IndexError` is modelled by `Option`: `none` is the exception.
-/

namespace EC11Model

/-- The 16-entry quadrature lookup table `state_table` from `EC11.__init__`
(src/ec11TaoBao.py line 25), indexed by `(last_state << 2) | current_state`. -/
def state_table : List Int := [0, -1, 1, 0, 1, 0, 0, -1, -1, 0, 0, 1, 0, 1, -1, 0]

/-- The mutable state of an `EC11` instance: the fields assigned in
`__init__` and updated by the methods.  Pin objects are external
collaborators and are not part of the state; their sampled values are passed
to the methods as arguments. -/
structure EC11 where
  last_state : Nat
  counter : Int
  step_accumulator : Int
  last_button : Nat
  button_debounce_time : Int
  deriving Repr, DecidableEq

/-- Packing of the two quadrature pin levels, `(a << 1) | b`, as computed in
`__init__` (line 21) and `read_rotation` (line 43). -/
def pack (a b : Nat) : Nat := (a <<< 1) ||| b

/-- `EC11.__init__` (lines 21-35): seed `last_state` from the two rotation
pins, zero the counter and the accumulator, seed the button level from the
button pin, and set `button_debounce_time = 0`. -/
def init (a b c : Nat) : EC11 :=
  { last_state := pack a b, counter := 0, step_accumulator := 0,
    last_button := c, button_debounce_time := 0 }

/-- Body of `EC11.read_rotation` (lines 37-66) after the packed
`current_state` has been computed from the sampled pins.  `none` models a
Python `IndexError` on the `state_table` lookup; otherwise the result is the
returned direction together with the updated state. -/
def read_rotation_core (current_state : Nat) (s : EC11) : Option (Int × EC11) :=
  let index := (s.last_state <<< 2) ||| current_state
  match state_table[index]? with
  | none => none
  | some direction =>
    if direction ≠ 0 then
      let acc := s.step_accumulator + direction
      let cnt := s.counter + direction
      if 4 ≤ |acc| then
        some (if 0 < acc then 1 else -1,
          { s with step_accumulator := 0, counter := cnt, last_state := current_state })
      else
        some (0, { s with step_accumulator := acc, counter := cnt, last_state := current_state })
    else
      some (0, { s with last_state := current_state })

/-- `EC11.read_rotation` (lines 37-66), with the two sampled pin levels
passed in by the caller. -/
def read_rotation (a b : Nat) (s : EC11) : Option (Int × EC11) :=
  read_rotation_core (pack a b) s

/-- A sequence of `read_rotation` calls: the list of sampled pin-level pairs
is consumed in order, producing the list of returned directions and the
final state; `none` if any call raises. -/
def read_rotation_seq : List (Nat × Nat) → EC11 → Option (List Int × EC11)
  | [], s => some ([], s)
  | (a, b) :: rest, s =>
    match read_rotation a b s with
    | none => none
    | some (d, s1) =>
      match read_rotation_seq rest s1 with
      | none => none
      | some (ds, s2) => some (d :: ds, s2)

/-- The list of directions returned by a sequence of `read_rotation` calls. -/
def outputs (inputs : List (Nat × Nat)) (s : EC11) : Option (List Int) :=
  (read_rotation_seq inputs s).map (·.1)

/-- The table delta looked up for a transition from packed state `q` to
packed state `t`: `state_table[(q << 2) | t]`. -/
def delta (q t : Nat) : Option Int := state_table[(q <<< 2) ||| t]?

/-- The sum of the table deltas looked up along a sequence of samples
starting from packed state `q` (`last_state` is unconditionally updated to
`current_state` on every call, so the trace of lookups depends only on `q`
and the samples). -/
def delta_sum : List (Nat × Nat) → Nat → Option Int
  | [], _ => some 0
  | (a, b) :: rest, q =>
    match delta q (pack a b) with
    | none => none
    | some d => (delta_sum rest (pack a b)).map (fun t => d + t)

/-- Checks that every table delta looked up along a sequence of samples from
packed state `q` is `+1` or `-1` (a valid single-step transition). -/
def steps_pm1 : List (Nat × Nat) → Nat → Bool
  | [], _ => true
  | (a, b) :: rest, q =>
    match delta q (pack a b) with
    | none => false
    | some d => (d == 1 || d == -1) && steps_pm1 rest (pack a b)

/-- MicroPython `time.ticks_diff` with the usual `TICKS_PERIOD = 2 ^ 30`:
wraparound-safe signed difference of two tick values. -/
def ticks_diff (t1 t2 : Int) : Int := (t1 - t2 + 2 ^ 29) % 2 ^ 30 - 2 ^ 29

/-- `EC11.read_button` (lines 68-87), with the sampled button level and the
current `ticks_ms` time passed in by the caller. -/
def read_button (current_button : Nat) (current_time : Int) (s : EC11) : Bool × EC11 :=
  if s.last_button = 0 ∧ current_button = 1 then
    if 50 < ticks_diff current_time s.button_debounce_time then
      (true, { s with button_debounce_time := current_time, last_button := current_button })
    else
      (false, { s with last_button := current_button })
  else
    (false, { s with last_button := current_button })

/-- `EC11.get_counter` (lines 89-91). -/
def get_counter (s : EC11) : Int := s.counter

/-- `EC11.reset_counter` (lines 93-95). -/
def reset_counter (s : EC11) : EC11 := { s with counter := 0 }

/-- The unique packed state reachable from `q` by a `+1` (clockwise) table
delta: the table's clockwise cycle is `0 → 2 → 3 → 1 → 0`. -/
def cw_next (q : Nat) : Nat :=
  match q with
  | 0 => 2
  | 1 => 0
  | 2 => 3
  | _ => 1

lemma pack_lt (a b : Nat) (ha : a ≤ 1) (hb : b ≤ 1) : pack a b < 4 := by
  interval_cases a <;> interval_cases b <;> decide

lemma cw_next_lt (q : Nat) (hq : q < 4) : cw_next q < 4 := by
  interval_cases q <;> decide

lemma delta_one_eq_cw_next (q t : Nat) (hq : q < 4) (ht : t < 4)
    (h : delta q t = some 1) : t = cw_next q := by
  revert h
  revert ht
  revert t
  revert hq
  revert q
  decide

lemma delta_self (t : Nat) (ht : t < 4) : delta t t = some 0 := by
  revert ht
  revert t
  decide

lemma index_lt (q : Nat) (hq : q < 4) (t : Nat) (ht : t < 4) : (q <<< 2) ||| t < 16 := by
  revert ht
  revert t
  revert hq
  revert q
  decide

/-- Inversion of a successful `read_rotation` call: the table delta that was
looked up, how the counter moved, where `last_state` went, the range of the
returned direction, the accumulator reset on a non-zero return, and the
preservation of the accumulator bound. -/
lemma read_rotation_inv (a b : Nat) (s : EC11) (d : Int) (s' : EC11)
    (h : read_rotation a b s = some (d, s')) :
    ∃ dir, delta s.last_state (pack a b) = some dir ∧
      s'.counter = s.counter + dir ∧
      s'.last_state = pack a b ∧
      (d = -1 ∨ d = 0 ∨ d = 1) ∧
      (d ≠ 0 → s'.step_accumulator = 0) ∧
      (|s.step_accumulator| ≤ 3 → |s'.step_accumulator| ≤ 3) := by
  simp only [read_rotation, read_rotation_core] at h
  cases hl : state_table[(s.last_state <<< 2) ||| pack a b]? with
  | none => rw [hl] at h; cases h
  | some dir =>
    rw [hl] at h
    dsimp only at h
    refine ⟨dir, hl, ?_⟩
    by_cases hdir : dir = 0
    · subst hdir
      simp only [ne_eq, not_true_eq_false, if_neg, reduceIte] at h
      simp only [Option.some.injEq, Prod.mk.injEq] at h
      obtain ⟨hd, hs'⟩ := h
      subst hd
      subst hs'
      simp
    · rw [if_pos hdir] at h
      by_cases hemit : 4 ≤ |s.step_accumulator + dir|
      · rw [if_pos hemit] at h
        simp only [Option.some.injEq, Prod.mk.injEq] at h
        obtain ⟨hd, hs'⟩ := h
        subst hd
        subst hs'
        refine ⟨rfl, rfl, ?_, fun _ => rfl, fun _ => by simp⟩
        by_cases hpos : 0 < s.step_accumulator + dir
        · rw [if_pos hpos]; tauto
        · rw [if_neg hpos]; tauto
      · rw [if_neg hemit] at h
        simp only [Option.some.injEq, Prod.mk.injEq] at h
        obtain ⟨hd, hs'⟩ := h
        subst hd
        subst hs'
        refine ⟨rfl, rfl, by tauto, by tauto, fun hb => ?_⟩
        dsimp only
        rw [not_le, abs_lt] at hemit
        rw [abs_le] at hb ⊢
        omega

/-- A `read_rotation` call never raises when the pins are boolean and the
stored state is in range: the table lookup is in bounds. -/
lemma read_rotation_isSome (a b : Nat) (s : EC11) (ha : a ≤ 1) (hb : b ≤ 1)
    (hq : s.last_state < 4) : ∃ d s', read_rotation a b s = some (d, s') := by
  have hi : (s.last_state <<< 2) ||| pack a b < state_table.length :=
    index_lt s.last_state hq (pack a b) (pack_lt a b ha hb)
  obtain ⟨dir, hdir⟩ : ∃ dir, state_table[(s.last_state <<< 2) ||| pack a b]? = some dir :=
    ⟨_, List.getElem?_eq_getElem hi⟩
  simp only [read_rotation, read_rotation_core]
  rw [hdir]
  dsimp only
  split_ifs <;> exact ⟨_, _, rfl⟩

/-- The accumulator bound `|step_accumulator| ≤ 3` is preserved by every
successful sequence of `read_rotation` calls. -/
lemma acc_bound_run (inputs : List (Nat × Nat)) : ∀ (s : EC11) (r : List Int × EC11),
    |s.step_accumulator| ≤ 3 → read_rotation_seq inputs s = some r →
    |r.2.step_accumulator| ≤ 3 := by
  induction inputs with
  | nil =>
    intro s r hb h
    unfold read_rotation_seq at h
    simp only [Option.some.injEq] at h
    subst h
    exact hb
  | cons x rest ih =>
    obtain ⟨a, b⟩ := x
    intro s r hb h
    unfold read_rotation_seq at h
    cases h1 : read_rotation a b s with
    | none => rw [h1] at h; cases h
    | some p =>
      obtain ⟨d, s1⟩ := p
      rw [h1] at h
      dsimp only at h
      cases h2 : read_rotation_seq rest s1 with
      | none => rw [h2] at h; cases h
      | some r' =>
        rw [h2] at h
        dsimp only at h
        obtain ⟨dir, _, _, _, _, _, hpres⟩ := read_rotation_inv a b s d s1 h1
        simp only [Option.some.injEq] at h
        subst h
        exact ih s1 r' (hpres hb) h2

/-- Claim C7: `reset_counter` sets `counter` to 0 and changes no other
field, so `get_counter` immediately after `reset_counter` returns 0 for
every prior state. -/
theorem reset_counter_zeroes_only_counter (s : EC11) :
    (reset_counter s).counter = 0 ∧
    (reset_counter s).step_accumulator = s.step_accumulator ∧
    (reset_counter s).last_state = s.last_state ∧
    (reset_counter s).last_button = s.last_button ∧
    (reset_counter s).button_debounce_time = s.button_debounce_time ∧
    get_counter (reset_counter s) = 0 :=
  ⟨rfl, rfl, rfl, rfl, rfl, rfl⟩

/-- Claim C2: from `last_state = 0` (pins a=0, b=0) with a zero accumulator,
the four calls with pin levels (0,1), (1,1), (1,0), (0,0) look up delta -1
each time (table indices 1, 7, 14, 8), return 0 on the first three calls and
-1 on the fourth, and leave `step_accumulator = 0` and the counter lowered
by 4. -/
theorem ccw_end_to_end (c : Int) (lb : Nat) (tb : Int) :
    delta 0 1 = some (-1) ∧ delta 1 3 = some (-1) ∧
    delta 3 2 = some (-1) ∧ delta 2 0 = some (-1) ∧
    read_rotation_seq [(0, 1), (1, 1), (1, 0), (0, 0)] ⟨0, c, 0, lb, tb⟩ =
      some ([0, 0, 0, -1], ⟨0, c - 4, 0, lb, tb⟩) := by
  refine ⟨rfl, rfl, rfl, rfl, ?_⟩
  simp [read_rotation_seq, read_rotation, read_rotation_core, state_table, pack]
  ring

/-- Claim C1, counterexample: the spec's named state sequence 0→1→3→2→0
(pins (0,1), (1,1), (1,0), (0,0) from `last_state = 0`) is not a clockwise
cycle of the code's table: the 4th call returns -1, not +1. -/
theorem cw_example_sequence_returns_minus_one :
    read_rotation_seq [(0, 1), (1, 1), (1, 0), (0, 0)] ⟨0, 0, 0, 0, 0⟩ =
      some ([0, 0, 0, -1], ⟨0, -4, 0, 0, 0⟩) ∧ (-1 : Int) ≠ 1 := by
  exact ⟨by decide, by decide⟩

/-- Claim C1, amended: for every starting quadrature state (with a zero
accumulator), a sequence of 4 consecutive clockwise raw steps — each
looked-up table delta equal to +1, i.e. the table's clockwise state cycle
`0→2→3→1→0` — makes `read_rotation` return +1 exactly once, on the 4th
call, and 0 on the first three calls. -/
theorem cw_four_steps_emit_plus_one (a1 b1 a2 b2 a3 b3 a4 b4 : Nat) (s : EC11)
    (ha1 : a1 ≤ 1) (hb1 : b1 ≤ 1) (ha2 : a2 ≤ 1) (hb2 : b2 ≤ 1)
    (ha3 : a3 ≤ 1) (hb3 : b3 ≤ 1) (ha4 : a4 ≤ 1) (hb4 : b4 ≤ 1)
    (hq : s.last_state < 4) (hacc : s.step_accumulator = 0)
    (h1 : delta s.last_state (pack a1 b1) = some 1)
    (h2 : delta (pack a1 b1) (pack a2 b2) = some 1)
    (h3 : delta (pack a2 b2) (pack a3 b3) = some 1)
    (h4 : delta (pack a3 b3) (pack a4 b4) = some 1) :
    outputs [(a1, b1), (a2, b2), (a3, b3), (a4, b4)] s = some [0, 0, 0, 1] := by
  obtain ⟨q, c, acc, lb, tb⟩ := s
  dsimp only at hq hacc h1
  subst hacc
  have hp1 := pack_lt a1 b1 ha1 hb1
  have hp2 := pack_lt a2 b2 ha2 hb2
  have hp3 := pack_lt a3 b3 ha3 hb3
  have hp4 := pack_lt a4 b4 ha4 hb4
  have e1 := delta_one_eq_cw_next q _ hq hp1 h1
  rw [e1] at h2
  have e2 := delta_one_eq_cw_next _ _ (cw_next_lt q hq) hp2 h2
  rw [e2] at h3
  have e3 := delta_one_eq_cw_next _ _ (cw_next_lt _ (cw_next_lt q hq)) hp3 h3
  rw [e3] at h4
  have e4 := delta_one_eq_cw_next _ _ (cw_next_lt _ (cw_next_lt _ (cw_next_lt q hq))) hp4 h4
  interval_cases q <;>
    simp [outputs, read_rotation_seq, read_rotation, read_rotation_core, state_table,
      cw_next, e1, e2, e3, e4]

/-- Claim C1, witness: the concrete clockwise cycle `0→2→3→1→0` from a
freshly seeded state returns 0, 0, 0, +1. -/
theorem cw_four_steps_emit_plus_one_witness :
    outputs [(1, 0), (1, 1), (0, 1), (0, 0)] ⟨0, 0, 0, 0, 0⟩ = some [0, 0, 0, 1] :=
  cw_four_steps_emit_plus_one 1 0 1 1 0 1 0 0 ⟨0, 0, 0, 0, 0⟩
    (by decide) (by decide) (by decide) (by decide) (by decide) (by decide)
    (by decide) (by decide) (by decide) rfl
    (by decide) (by decide) (by decide) (by decide)

/-- Claim C3: after any successful sequence of `read_rotation` calls, the
final `counter` equals its initial value plus the signed sum of all table
deltas looked up during the sequence (zero deltas contribute nothing, so
this is the sum of the non-zero deltas), whether or not detents were
emitted. -/
theorem counter_eq_initial_plus_delta_sum (inputs : List (Nat × Nat)) :
    ∀ (s : EC11) (r : List Int × EC11), read_rotation_seq inputs s = some r →
    ∃ t, delta_sum inputs s.last_state = some t ∧ r.2.counter = s.counter + t := by
  induction inputs with
  | nil =>
    intro s r h
    unfold read_rotation_seq at h
    simp only [Option.some.injEq] at h
    subst h
    exact ⟨0, rfl, by simp⟩
  | cons x rest ih =>
    obtain ⟨a, b⟩ := x
    intro s r h
    unfold read_rotation_seq at h
    cases h1 : read_rotation a b s with
    | none => rw [h1] at h; cases h
    | some p =>
      obtain ⟨d, s1⟩ := p
      rw [h1] at h
      dsimp only at h
      cases h2 : read_rotation_seq rest s1 with
      | none => rw [h2] at h; cases h
      | some r' =>
        rw [h2] at h
        dsimp only at h
        simp only [Option.some.injEq] at h
        subst h
        obtain ⟨dir, hdl, hdc, hls, _⟩ := read_rotation_inv a b s d s1 h1
        obtain ⟨t, hts, htc⟩ := ih s1 r' h2
        rw [hls] at hts
        refine ⟨dir + t, ?_, ?_⟩
        · unfold delta_sum
          rw [hdl, hts]
          rfl
        · dsimp only
          rw [htc, hdc]
          ring

/-- Claim C3, witness: two counter-clockwise raw steps from a fresh state
move the counter by the summed deltas -1 + -1. -/
theorem counter_eq_initial_plus_delta_sum_witness :
    ∃ t, delta_sum [(0, 1), (1, 1)] 0 = some t ∧ (-2 : Int) = 0 + t :=
  counter_eq_initial_plus_delta_sum [(0, 1), (1, 1)] ⟨0, 0, 0, 0, 0⟩
    ([0, 0], ⟨3, -2, -2, 0, 0⟩) (by decide)

/-- Claim C4: `step_accumulator` is 0 immediately after any `read_rotation`
call that returns a non-zero direction; and starting from
`step_accumulator = 0`, under any sequence of valid single-step transitions
(each looked-up delta ±1) the invariant `|step_accumulator| ≤ 3` holds
after every call (every such sequence, hence every prefix of one, ends
within the bound). -/
theorem acc_resets_on_event_and_stays_bounded :
    (∀ (a b : Nat) (s : EC11) (d : Int) (s' : EC11),
      read_rotation a b s = some (d, s') → d ≠ 0 → s'.step_accumulator = 0) ∧
    (∀ (inputs : List (Nat × Nat)) (s : EC11) (r : List Int × EC11),
      s.step_accumulator = 0 → steps_pm1 inputs s.last_state = true →
      read_rotation_seq inputs s = some r → |r.2.step_accumulator| ≤ 3) := by
  constructor
  · intro a b s d s' h hd
    obtain ⟨dir, _, _, _, _, hreset, _⟩ := read_rotation_inv a b s d s' h
    exact hreset hd
  · intro inputs s r h0 _ h
    exact acc_bound_run inputs s r (by rw [h0]; norm_num) h

/-- Claim C4, witness: an emitting call resets the accumulator to 0, and a
single valid step from a fresh state stays within the bound. -/
theorem acc_resets_on_event_and_stays_bounded_witness :
    (⟨1, 1, 0, 0, 0⟩ : EC11).step_accumulator = 0 ∧ |(-1 : Int)| ≤ 3 :=
  ⟨acc_resets_on_event_and_stays_bounded.1 0 1 ⟨3, 0, 3, 0, 0⟩ 1 ⟨1, 1, 0, 0, 0⟩
      (by decide) (by decide),
    acc_resets_on_event_and_stays_bounded.2 [(0, 1)] ⟨0, 0, 0, 0, 0⟩
      ([0], ⟨1, -1, -1, 0, 0⟩) rfl (by decide) (by decide)⟩

/-- Claim C5: a `read_rotation` call whose packed current state equals
`last_state` returns 0 and leaves the whole state (in particular `counter`
and `step_accumulator`) unchanged, and repeating such a call any number of
times changes nothing. -/
theorem no_change_sample_idempotent (a b : Nat) (s : EC11)
    (ha : a ≤ 1) (hb : b ≤ 1) (hs : s.last_state = pack a b) :
    read_rotation a b s = some (0, s) ∧
    ∀ n, read_rotation_seq (List.replicate n (a, b)) s = some (List.replicate n 0, s) := by
  have hp := pack_lt a b ha hb
  obtain ⟨q, c, acc, lb, tb⟩ := s
  dsimp only at hs
  subst hs
  have h1 : read_rotation a b ⟨pack a b, c, acc, lb, tb⟩ = some (0, ⟨pack a b, c, acc, lb, tb⟩) := by
    simp only [read_rotation, read_rotation_core]
    have hd : state_table[(pack a b <<< 2) ||| pack a b]? = some 0 := delta_self _ hp
    rw [hd]
    simp
  refine ⟨h1, ?_⟩
  intro n
  induction n with
  | zero => rfl
  | succ n ih =>
    simp only [List.replicate_succ, read_rotation_seq, h1, ih]

/-- Claim C5, witness: a no-change sample from state 0 is a no-op, twice as
well. -/
theorem no_change_sample_idempotent_witness :
    read_rotation 0 0 ⟨0, 5, 2, 0, 0⟩ = some (0, ⟨0, 5, 2, 0, 0⟩) ∧
    read_rotation_seq (List.replicate 2 (0, 0)) ⟨0, 5, 2, 0, 0⟩ =
      some (List.replicate 2 0, ⟨0, 5, 2, 0, 0⟩) :=
  ⟨(no_change_sample_idempotent 0 0 ⟨0, 5, 2, 0, 0⟩ (by decide) (by decide) (by decide)).1,
    (no_change_sample_idempotent 0 0 ⟨0, 5, 2, 0, 0⟩ (by decide) (by decide) (by decide)).2 2⟩

/-- Claim C8: whenever the table index is a same-state index (0, 5, 10, 15)
or an impossible double-bit-jump index (6 or 9), the looked-up delta is 0,
the call returns 0 rather than raising, and `counter` and
`step_accumulator` are unchanged (only `last_state` is updated). -/
theorem illegal_transition_is_no_event (a b : Nat) (s : EC11)
    (h : ((s.last_state <<< 2) ||| pack a b) ∈ ([0, 5, 10, 15, 6, 9] : List Nat)) :
    state_table[(s.last_state <<< 2) ||| pack a b]? = some 0 ∧
    read_rotation a b s = some (0, { s with last_state := pack a b }) := by
  have h0 : state_table[(s.last_state <<< 2) ||| pack a b]? = some 0 := by
    simp only [List.mem_cons, List.not_mem_nil, or_false] at h
    rcases h with h | h | h | h | h | h <;> rw [h] <;> decide
  refine ⟨h0, ?_⟩
  simp only [read_rotation, read_rotation_core]
  rw [h0]
  simp

/-- Claim C8, witness: index 6 (an impossible jump, `last_state = 1` to
current state 2) is absorbed as a no-event. -/
theorem illegal_transition_is_no_event_witness :
    state_table[((1 : Nat) <<< 2) ||| pack 1 0]? = some 0 ∧
    read_rotation 1 0 ⟨1, 7, 2, 0, 0⟩ = some (0, ⟨2, 7, 2, 0, 0⟩) :=
  illegal_transition_is_no_event 1 0 ⟨1, 7, 2, 0, 0⟩ (by decide)

/-- Claim C9: with boolean pin levels and `last_state` in [0,3], the table
index is in [0,15] (in bounds for the 16-entry table), the call returns
`some` (no exception) with a direction in {-1, 0, +1}, and the new
`last_state` is again in [0,3].  `read_button`, `get_counter` and
`reset_counter` are total functions of the model, so they raise nothing by
construction. -/
theorem rotation_in_bounds_and_safe (a b : Nat) (s : EC11)
    (ha : a ≤ 1) (hb : b ≤ 1) (hq : s.last_state < 4) :
    ((s.last_state <<< 2) ||| pack a b) < 16 ∧
    ∃ d s', read_rotation a b s = some (d, s') ∧
      (d = -1 ∨ d = 0 ∨ d = 1) ∧ s'.last_state < 4 := by
  refine ⟨index_lt _ hq _ (pack_lt a b ha hb), ?_⟩
  obtain ⟨d, s', hds⟩ := read_rotation_isSome a b s ha hb hq
  obtain ⟨dir, _, _, hls, hd3, _, _⟩ := read_rotation_inv a b s d s' hds
  exact ⟨d, s', hds, hd3, by rw [hls]; exact pack_lt a b ha hb⟩

/-- Claim C9, witness: a concrete in-range call is in bounds and safe. -/
theorem rotation_in_bounds_and_safe_witness :
    ((0 : Nat) <<< 2) ||| pack 0 1 < 16 ∧
    ∃ d s', read_rotation 0 1 ⟨0, 0, 0, 0, 0⟩ = some (d, s') ∧
      (d = -1 ∨ d = 0 ∨ d = 1) ∧ s'.last_state < 4 :=
  rotation_in_bounds_and_safe 0 1 ⟨0, 0, 0, 0, 0⟩ (by decide) (by decide) (by decide)

lemma ticks_diff_eq (t1 t2 : Int) (h0 : 0 ≤ t1 - t2) (h1 : t1 - t2 < 2 ^ 29) :
    ticks_diff t1 t2 = t1 - t2 := by
  unfold ticks_diff
  have e29 : (2 : Int) ^ 29 = 536870912 := by norm_num
  have e30 : (2 : Int) ^ 30 = 1073741824 := by norm_num
  rw [e29] at h1
  rw [e29, e30]
  rw [Int.emod_eq_of_lt (by omega) (by omega)]
  omega

/-- Claim C6: `read_button` returns true exactly when a rising edge occurs
(`button_level = 1`, `last_button = 0`) and `now_ms - last_button_event_time`
is strictly greater than 50 (stated over a non-wrapping time span; the code
uses the wraparound-safe `ticks_diff`); on a true return the event time is
set to `now_ms`.  Concretely: a press is accepted at t=0 (the prior event
time lying one wrap period back), then after release a second rising edge
at t=30 returns false while one at t=51 returns true. -/
theorem button_rising_edge_debounced (lvl : Nat) (now : Int) (s : EC11)
    (h0 : 0 ≤ now - s.button_debounce_time)
    (h1 : now - s.button_debounce_time < 2 ^ 29) :
    ((read_button lvl now s).1 = true ↔
      lvl = 1 ∧ s.last_button = 0 ∧ 50 < now - s.button_debounce_time) ∧
    ((read_button lvl now s).1 = true →
      (read_button lvl now s).2.button_debounce_time = now) ∧
    read_button 1 0 ⟨0, 0, 0, 0, 2 ^ 30 - 100⟩ = (true, ⟨0, 0, 0, 1, 0⟩) ∧
    read_button 1 30 ⟨0, 0, 0, 0, 0⟩ = (false, ⟨0, 0, 0, 1, 0⟩) ∧
    read_button 1 51 ⟨0, 0, 0, 0, 0⟩ = (true, ⟨0, 0, 0, 1, 51⟩) := by
  refine ⟨?_, ?_, by decide, by decide, by decide⟩
  · unfold read_button
    rw [ticks_diff_eq now s.button_debounce_time h0 h1]
    split_ifs with hc ht
    · simp [hc.1, hc.2, ht]
    · simp only [Bool.false_eq_true, false_iff]
      intro hk
      exact ht hk.2.2
    · simp only [Bool.false_eq_true, false_iff]
      intro hk
      exact hc ⟨hk.2.1, hk.1⟩
  · unfold read_button
    rw [ticks_diff_eq now s.button_debounce_time h0 h1]
    split_ifs <;> simp

/-- Claim C6, witness: a rising edge 100 ms after the last accepted event is
accepted. -/
theorem button_rising_edge_debounced_witness :
    (read_button 1 100 ⟨0, 0, 0, 0, 0⟩).1 = true ↔
      1 = 1 ∧ (0 : Nat) = 0 ∧ (50 : Int) < 100 - 0 :=
  (button_rising_edge_debounced 1 100 ⟨0, 0, 0, 0, 0⟩ (by norm_num) (by norm_num)).1

/-- Claim C10: because `button_debounce_time` is initialized to 0, the very
first rising edge after startup is rejected whenever its timestamp `now_ms`
satisfies `now_ms - 0 ≤ 50`, even though no press was ever accepted; a
startup press is accepted once the timestamp exceeds 50. -/
theorem startup_press_needs_time_past_window (a b : Nat) (now : Int) (h0 : 0 ≤ now) :
    (now ≤ 50 → (read_button 1 now (init a b 0)).1 = false) ∧
    (50 < now → now < 2 ^ 29 → (read_button 1 now (init a b 0)).1 = true) := by
  have e29 : (2 : Int) ^ 29 = 536870912 := by norm_num
  constructor
  · intro hle
    simp only [read_button, init]
    rw [ticks_diff_eq now 0 (by omega) (by rw [e29]; omega)]
    rw [if_pos (⟨trivial, trivial⟩ : True ∧ True), if_neg (by omega)]
  · intro hgt hlt
    rw [e29] at hlt
    simp only [read_button, init]
    rw [ticks_diff_eq now 0 (by omega) (by rw [e29]; omega)]
    rw [if_pos (⟨trivial, trivial⟩ : True ∧ True), if_pos (by omega)]

/-- Claim C10, witness: a first press at t=30 is rejected, at t=51 it is
accepted. -/
theorem startup_press_needs_time_past_window_witness :
    (read_button 1 30 (init 0 0 0)).1 = false ∧ (read_button 1 51 (init 0 0 0)).1 = true :=
  ⟨(startup_press_needs_time_past_window 0 0 30 (by norm_num)).1 (by norm_num),
    (startup_press_needs_time_past_window 0 0 51 (by norm_num)).2 (by norm_num) (by norm_num)⟩

end EC11Model
